import Mathlib

/-!
Verification of the `tq` filter-pipeline (src/bin/tq.py).

A Python string is modelled as a `List Char` (a sequence of code points), a
Document as a `List Line`, and the filter chain as a `List Line` of segment
strings.  Fallible execution (Python exceptions) is modelled with `Except`;
the one loop in the source whose termination depends on a run-time parameter
(`Tq.col_width`) is modelled with an explicit fuel parameter, so that both
its terminating and its diverging behaviour can be stated.
-/

deriving instance DecidableEq for Except

namespace Tq

/-- A Line models a Python string: a sequence of characters. -/
abbrev Line := List Char

/-- The Line denoted by a Lean string literal. -/
def toL (s : String) : Line := s.toList

/-- The whitespace characters recognized by Python's str.strip(). -/
def isPySpace (c : Char) : Bool :=
  c == ' ' || c == '\t' || c == '\n' || c == '\r' || c == '\x0b' || c == '\x0c'

/-- Python str.lstrip(). -/
def lstripWs (s : Line) : Line := s.dropWhile isPySpace

/-- Python str.strip(). -/
def stripWs (s : Line) : Line :=
  ((s.dropWhile isPySpace).reverse.dropWhile isPySpace).reverse

/-- Python str.strip(c) with a single strip character c. -/
def stripChar (c : Char) (s : Line) : Line :=
  ((s.dropWhile (· == c)).reverse.dropWhile (· == c)).reverse

/-- ASCII [a-zA-Z0-9], the character class of the regexes in the source. -/
def isAlnumAscii (c : Char) : Bool := c.isAlpha || c.isDigit

/-- re.sub(r'[^a-zA-Z0-9]+', rep, s): replace every maximal run of
non-alphanumeric characters with the single character rep.  The fold keeps a
flag recording whether the previous character was part of such a run. -/
def collapseRuns (rep : Char) (s : Line) : Line :=
  (s.foldl
    (fun st c =>
      if isAlnumAscii c then (st.1 ++ [c], false)
      else if st.2 then st else (st.1 ++ [rep], true))
    (([], false) : Line × Bool)).1

/-- Python str.split(sep) with a one-character separator: every occurrence of
sep ends a field, so n separators yield n+1 fields (possibly empty). -/
def splitOnChar (sep : Char) : Line → List Line
  | [] => [[]]
  | c :: rest =>
    match splitOnChar sep rest with
    | [] => [[]]
    | g :: gs => if c = sep then [] :: g :: gs else (c :: g) :: gs

/-- re.split(r'[^a-zA-Z0-9]+', s), realized by collapsing each separator run
to a single placeholder character (itself non-alphanumeric, so strings that
already contain it change nothing) and splitting on the placeholder. -/
def splitNonAlnum (s : Line) : List Line :=
  splitOnChar '\x00' (collapseRuns '\x00' s)

/-- Python int(str): optional surrounding whitespace, an optional sign, then
a non-empty digit string in which single underscores may separate digits. -/
def pyDigitsCore : List Char → Nat → Option Nat
  | [], acc => some acc
  | '_' :: c :: rest, acc =>
    if c.isDigit then pyDigitsCore rest (acc * 10 + (c.toNat - 48)) else none
  | c :: rest, acc =>
    if c.isDigit then pyDigitsCore rest (acc * 10 + (c.toNat - 48)) else none

/-- The digit part of Python int(str): first character must be a digit. -/
def pyDigits : List Char → Option Nat
  | [] => none
  | c :: rest => if c.isDigit then pyDigitsCore rest (c.toNat - 48) else none

/-- Python int(str), returning none where Python raises ValueError. -/
def pyInt (s : Line) : Option Int :=
  match stripWs s with
  | '+' :: rest => (pyDigits rest).map (fun n => (n : Int))
  | '-' :: rest => (pyDigits rest).map (fun n => -(n : Int))
  | rest => (pyDigits rest).map (fun n => (n : Int))

/-- Python slice index resolution: a negative index counts from the end of
the string, clamping below at 0 (Int.toNat maps negatives to 0). -/
def pyIdx (w : Int) (len : Nat) : Nat :=
  (if w < 0 then (len : Int) + w else w).toNat

/-- Python s[:w]. -/
def pySliceTo (w : Int) (s : Line) : Line := s.take (pyIdx w s.length)

/-- Python s[w:]. -/
def pySliceFrom (w : Int) (s : Line) : Line := s.drop (pyIdx w s.length)

/-- The exceptions the executor can raise, as they occur in the source:
ValueError from int() on a malformed token (carrying the token, as the
Python message does), TypeError from rjust/ljust when the fill string is not
exactly one character, and a marker for the one loop in the source
(Tq.col_width with width <= 0) that never terminates and therefore has no
return value in a total embedding. -/
inductive TqError where
  | valueError : Line → TqError
  | typeError : TqError
  | diverge : TqError
deriving DecidableEq

/-- Tq.join. -/
def join (lines : List Line) : List Line := [lines.flatten]

/-- Tq.snake_case. -/
def snake_case (line : Line) : Line :=
  (stripChar '_' (collapseRuns '_' line)).map Char.toLower

/-- Tq.kebab_case. -/
def kebab_case (line : Line) : Line :=
  (stripChar '-' (collapseRuns '-' line)).map Char.toLower

/-- Python str.capitalize(): first character uppercased, the rest lowered. -/
def pyCapitalize (w : Line) : Line :=
  match w with
  | [] => []
  | c :: rest => c.toUpper :: rest.map Char.toLower

/-- Tq.camel_case.  re.split never returns an empty list, so the [] case is
unreachable; it realizes the source's `if words else ''` guard. -/
def camel_case (line : Line) : Line :=
  match splitNonAlnum line with
  | [] => []
  | w :: ws => w.map Char.toLower ++ (ws.map pyCapitalize).flatten

/-- Tq.pascal_case. -/
def pascal_case (line : Line) : Line :=
  ((splitNonAlnum line).map pyCapitalize).flatten

/-- Tq.title_case (Python str.title): a cased character starting a word is
uppercased, one following another cased character is lowered; digits and
other non-alphabetic characters end the current word. -/
def title_case (line : Line) : Line :=
  (line.foldl
    (fun st c =>
      if c.isAlpha then (st.1 ++ [if st.2 then c.toLower else c.toUpper], true)
      else (st.1 ++ [c], false))
    (([], false) : Line × Bool)).1

/-- Tq.sentence_case. -/
def sentence_case (line : Line) : Line :=
  match stripWs line with
  | [] => []
  | c :: rest => c.toUpper :: rest.map Char.toLower

/-- Tq.lowercase. -/
def lowercase (line : Line) : Line := line.map Char.toLower

/-- Tq.uppercase. -/
def uppercase (line : Line) : Line := line.map Char.toUpper

/-- Tq.capitalize. -/
def capitalize (line : Line) : Line := pyCapitalize line

/-- Tq.trim. -/
def trim (line : Line) : Line := stripWs line

/-- Tq.reverse. -/
def reverse (line : Line) : Line := line.reverse

/-- Lexicographic comparison of Python strings by code point. -/
def lexLe : Line → Line → Bool
  | [], _ => true
  | _ :: _, [] => false
  | a :: as, b :: bs => if a = b then lexLe as bs else decide (a < b)

/-- Stable insertion keeping equal keys in encounter order. -/
def insertSorted (l : Line) : List Line → List Line
  | [] => [l]
  | x :: xs => if lexLe x l then x :: insertSorted l xs else l :: x :: xs

/-- Tq.sort: Python sorted(lines), ascending stable lexicographic order. -/
def sort (lines : List Line) : List Line :=
  lines.foldl (fun acc l => insertSorted l acc) []

/-- The loop of Tq.unique: seen is the set of lines already emitted. -/
def uniqueFrom (seen : List Line) : List Line → List Line
  | [] => []
  | l :: ls => if l ∈ seen then uniqueFrom seen ls else l :: uniqueFrom (l :: seen) ls

/-- Tq.unique. -/
def unique (lines : List Line) : List Line := uniqueFrom [] lines

/-- Tq.count: str(len(line)). -/
def count (line : Line) : Line := (Nat.repr line.length).toList

/-- Tq.length: str(len(line)). -/
def length (line : Line) : Line := (Nat.repr line.length).toList

/-- Tq.first. -/
def first (lines : List Line) : List Line :=
  match lines with
  | [] => []
  | l :: _ => [l]

/-- Tq.last. -/
def last (lines : List Line) : List Line :=
  match lines.getLast? with
  | none => []
  | some l => [l]

/-- Tq.indent: ' ' * n + line (Python string repetition clamps n below 0). -/
def indent (n : Int) (line : Line) : Line := List.replicate n.toNat ' ' ++ line

/-- Tq.dedent. -/
def dedent (line : Line) : Line := lstripWs line

/-- Tq.pad_left: line.rjust(width, c); unchanged when width <= len(line). -/
def pad_left (line : Line) (width : Int) (c : Char) : Line :=
  if width ≤ (line.length : Int) then line
  else List.replicate (width - (line.length : Int)).toNat c ++ line

/-- Tq.pad_right: line.ljust(width, c). -/
def pad_right (line : Line) (width : Int) (c : Char) : Line :=
  if width ≤ (line.length : Int) then line
  else line ++ List.replicate (width - (line.length : Int)).toNat c

/-- Tq.remove_empty. -/
def remove_empty (lines : List Line) : List Line :=
  lines.filter (fun l => decide (stripWs l ≠ []))

/-- Tq.truncate: line[:n]. -/
def truncate (line : Line) (n : Int) : Line := pySliceTo n line

/-- The inner while loop of Tq.col_width on one line, with explicit fuel:
one unit of fuel is spent per iteration, and none is returned when the fuel
runs out while the loop guard still holds. -/
def colWidthIter (width : Int) (fuel : Nat) (line : Line) (acc : List Line) :
    Option (List Line) :=
  if (line.length : Int) > width then
    match fuel with
    | 0 => none
    | f + 1 =>
      colWidthIter width f (pySliceFrom width line) (acc ++ [pySliceTo width line])
  else if line = [] then some acc else some (acc ++ [line])
termination_by fuel

/-- Tq.col_width: the for loop over the Document, threading the result
accumulator through the per-line while loop. -/
def colWidthDoc (width : Int) (fuel : Nat) : List Line → List Line → Option (List Line)
  | [], acc => some acc
  | l :: ls, acc =>
    match colWidthIter width fuel l acc with
    | none => none
    | some acc2 => colWidthDoc width fuel ls acc2

/-- The per-line result of Tq.col_width as a total function, defined for
width >= 1 (the guard makes the definition total for every width; it agrees
with the fuelled loop exactly when width >= 1). -/
def colWidthLine (width : Int) (s : Line) : List Line :=
  if h : (s.length : Int) > width ∧ 1 ≤ width then
    pySliceTo width s :: colWidthLine width (pySliceFrom width s)
  else if s = [] then [] else [s]
termination_by s.length
decreasing_by
  simp only [pySliceFrom, List.length_drop]
  have h1 : pyIdx width s.length = width.toNat := by
    simp only [pyIdx, if_neg (by omega : ¬ width < 0)]
  omega

/-- The element-wise entries of the Tq.get_filters dictionary.  The source
dictionary also binds the collection-wise names join, sort, unique, first
and last, but the executor intercepts those names with its exact-match
branches before consulting the dictionary, and likewise intercepts indent,
pad-left, pad-right and truncate by prefix, so only the element-wise
bindings below are reachable through the dictionary. -/
def get_filters (f : Line) : Option (Line → Line) :=
  if f = toL "snake-case" then some snake_case
  else if f = toL "kebab-case" then some kebab_case
  else if f = toL "camel-case" then some camel_case
  else if f = toL "pascal-case" then some pascal_case
  else if f = toL "title-case" then some title_case
  else if f = toL "sentence-case" then some sentence_case
  else if f = toL "lowercase" then some lowercase
  else if f = toL "uppercase" then some uppercase
  else if f = toL "capitalize" then some capitalize
  else if f = toL "trim" then some trim
  else if f = toL "reverse" then some reverse
  else if f = toL "count" then some count
  else if f = toL "length" then some length
  else if f = toL "indent" then some (indent 4)
  else if f = toL "dedent" then some dedent
  else if f = toL "pad-left" then some (fun l => pad_left l 10 ' ')
  else if f = toL "pad-right" then some (fun l => pad_right l 10 ' ')
  else if f = toL "truncate" then some (fun l => truncate l 10)
  else none

/-- Python str.startswith. -/
def pyStartswith : Line → Line → Bool
  | [], _ => true
  | _ :: _, [] => false
  | p :: ps, c :: cs => p == c && pyStartswith ps cs

/-- `int(parts[i]) if len(parts) > i else default`: the integer-parameter
idiom of the executor's parameterized branches. -/
def intParam (parts : List Line) (i : Nat) (dflt : Int) : Except TqError Int :=
  match parts.get? i with
  | none => Except.ok dflt
  | some tok =>
    match pyInt tok with
    | some n => Except.ok n
    | none => Except.error (TqError.valueError tok)

/-- One pass of the dispatch in Tq.apply_filters for a single segment f. -/
def applyFilter1 (lines : List Line) (f : Line) : Except TqError (List Line) :=
  if f = toL "join" then Except.ok (join lines)
  else if f = toL "sort" then Except.ok (sort lines)
  else if f = toL "unique" then Except.ok (unique lines)
  else if f = toL "first" then Except.ok (first lines)
  else if f = toL "last" then Except.ok (last lines)
  else if f = toL "remove-empty" then Except.ok (remove_empty lines)
  else if pyStartswith (toL "col-width") f then
    match intParam (splitOnChar ':' f) 1 10 with
    | Except.error e => Except.error e
    | Except.ok w =>
      match colWidthDoc w ((lines.map List.length).sum) lines [] with
      | some r => Except.ok r
      | none => Except.error TqError.diverge
  else if pyStartswith (toL "indent") f then
    match intParam (splitOnChar ':' f) 1 4 with
    | Except.error e => Except.error e
    | Except.ok n => Except.ok (lines.map (indent n))
  else if pyStartswith (toL "pad-left") f then
    match intParam (splitOnChar ':' f) 1 10 with
    | Except.error e => Except.error e
    | Except.ok w =>
      match ((splitOnChar ':' f).get? 2).getD [' '] with
      | [c] => Except.ok (lines.map (fun l => pad_left l w c))
      | _ => if lines = [] then Except.ok [] else Except.error TqError.typeError
  else if pyStartswith (toL "pad-right") f then
    match intParam (splitOnChar ':' f) 1 10 with
    | Except.error e => Except.error e
    | Except.ok w =>
      match ((splitOnChar ':' f).get? 2).getD [' '] with
      | [c] => Except.ok (lines.map (fun l => pad_right l w c))
      | _ => if lines = [] then Except.ok [] else Except.error TqError.typeError
  else if pyStartswith (toL "truncate") f then
    match intParam (splitOnChar ':' f) 1 10 with
    | Except.error e => Except.error e
    | Except.ok n => Except.ok (lines.map (fun l => truncate l n))
  else
    match get_filters f with
    | some g => Except.ok (lines.map g)
    | none => Except.ok lines

/-- Tq.apply_filters: thread the Document through the chain left to right,
aborting on the first exception. -/
def applyFilters (lines : List Line) : List Line → Except TqError (List Line)
  | [] => Except.ok lines
  | f :: rest =>
    match applyFilter1 lines f with
    | Except.error e => Except.error e
    | Except.ok lines2 => applyFilters lines2 rest

/-- Tq.parse_filter_string: None or the empty string yields the empty chain;
otherwise split on the pipe character and strip each segment. -/
def parse_filter_string : Option Line → List Line
  | none => []
  | some s => if s = [] then [] else (splitOnChar '|' s).map stripWs

/-- The invocation name of a chain segment: its first colon-separated
token. -/
def invocationName (f : Line) : Line := (splitOnChar ':' f).headD []

/-- The registered filter names: the catalog documented in the tool's help
text, i.e. all names the executor and the dictionary recognize. -/
def registeredNames : List Line :=
  [toL "join", toL "snake-case", toL "kebab-case", toL "camel-case",
   toL "pascal-case", toL "title-case", toL "sentence-case", toL "lowercase",
   toL "uppercase", toL "capitalize", toL "trim", toL "reverse", toL "sort",
   toL "unique", toL "count", toL "length", toL "first", toL "last",
   toL "indent", toL "dedent", toL "pad-left", toL "pad-right",
   toL "remove-empty", toL "truncate", toL "col-width"]

/-- A segment is element-wise when executing it alone always succeeds and
acts as List.map of a fixed per-line function: this packages both halves of
the cardinality invariant (length preservation, and output line i depending
only on input line i through one function shared by all documents). -/
def ElementWise (seg : Line) : Prop :=
  ∃ g : Line → Line, ∀ lines : List Line,
    applyFilters lines [seg] = Except.ok (lines.map g)

/-- The element-wise filter names as listed in the cardinality invariant. -/
def elementNames : List Line :=
  [toL "snake-case", toL "kebab-case", toL "camel-case", toL "pascal-case",
   toL "title-case", toL "sentence-case", toL "lowercase", toL "uppercase",
   toL "capitalize", toL "trim", toL "reverse", toL "count", toL "length",
   toL "indent", toL "dedent", toL "pad-left", toL "pad-right", toL "truncate"]

/-- Modelled from the spec: order-preserving de-duplication keeps the first
occurrence of each line and removes every line equal to an earlier one. -/
def uniqueSpec : List Line → List Line
  | [] => []
  | l :: ls => l :: uniqueSpec (ls.filter (fun x => decide (x ≠ l)))
termination_by ls => ls.length
decreasing_by
  exact Nat.lt_succ_of_le (List.length_filter_le _ _)

/-- col-width:width on the single-line Document [s] yields no output at any
fuel: the source loop never terminates. -/
def colWidthNoOutput (width : Int) (s : Line) : Prop :=
  ∀ fuel, colWidthDoc width fuel [s] [] = none

/-- Joining fields with the colon character: the left inverse used to state
that the colon split preserves tokens verbatim. -/
def joinWithColon : List Line → Line
  | [] => []
  | [t] => t
  | t :: ts => t ++ ':' :: joinWithColon ts

theorem splitOnChar_ne_nil (sep : Char) (s : Line) : splitOnChar sep s ≠ [] := by
  cases s with
  | nil => simp [splitOnChar]
  | cons c rest =>
    simp only [splitOnChar]
    cases splitOnChar sep rest with
    | nil => simp
    | cons g gs =>
      by_cases h : c = sep <;> simp [h]

theorem splitOnChar_no_sep (sep : Char) (s : Line) (h : sep ∉ s) :
    splitOnChar sep s = [s] := by
  induction s with
  | nil => rfl
  | cons c rest ih =>
    have hc : c ≠ sep := fun he => h (he ▸ List.mem_cons_self c rest)
    have hr : sep ∉ rest := fun hm => h (List.mem_cons_of_mem c hm)
    simp only [splitOnChar, ih hr]
    rw [if_neg hc]

theorem splitOnChar_append (sep : Char) (xs ys : Line) (h : sep ∉ xs) :
    splitOnChar sep (xs ++ sep :: ys) = xs :: splitOnChar sep ys := by
  induction xs with
  | nil =>
    show splitOnChar sep (sep :: ys) = [] :: splitOnChar sep ys
    cases hsp : splitOnChar sep ys with
    | nil => exact absurd hsp (splitOnChar_ne_nil sep ys)
    | cons g gs =>
      simp [splitOnChar, hsp]
  | cons c xs ih =>
    have hc : c ≠ sep := fun he => h (he ▸ List.mem_cons_self c xs)
    have hx : sep ∉ xs := fun hm => h (List.mem_cons_of_mem c hm)
    simp only [List.cons_append, splitOnChar, List.append_eq, ih hx]
    show (if c = sep then [] :: xs :: splitOnChar sep ys
          else (c :: xs) :: splitOnChar sep ys) = (c :: xs) :: splitOnChar sep ys
    rw [if_neg hc]

theorem joinWithColon_cons_cons (c : Char) (g : Line) (gs : List Line) :
    joinWithColon ((c :: g) :: gs) = c :: joinWithColon (g :: gs) := by
  cases gs <;> rfl

theorem joinWithColon_splitOnChar (s : Line) :
    joinWithColon (splitOnChar ':' s) = s := by
  induction s with
  | nil => rfl
  | cons c rest ih =>
    simp only [splitOnChar]
    cases hsp : splitOnChar ':' rest with
    | nil => exact absurd hsp (splitOnChar_ne_nil ':' rest)
    | cons g gs =>
      rw [hsp] at ih
      by_cases hc : c = ':'
      · show joinWithColon (if c = ':' then [] :: g :: gs else (c :: g) :: gs) = c :: rest
        rw [if_pos hc, hc]
        show ':' :: joinWithColon (g :: gs) = ':' :: rest
        rw [ih]
      · show joinWithColon (if c = ':' then [] :: g :: gs else (c :: g) :: gs) = c :: rest
        rw [if_neg hc, joinWithColon_cons_cons, ih]

theorem invocationName_no_colon (k : Line) (h : ':' ∉ k) : invocationName k = k := by
  simp [invocationName, splitOnChar_no_sep ':' k h]

theorem applyFilters_single_ok (lines out : List Line) (f : Line)
    (h : applyFilter1 lines f = Except.ok out) :
    applyFilters lines [f] = Except.ok out := by
  simp [applyFilters, h]

theorem applyFilters_single_err (lines : List Line) (f : Line) (e : TqError)
    (h : applyFilter1 lines f = Except.error e) :
    applyFilters lines [f] = Except.error e := by
  simp [applyFilters, h]

theorem applyFilters_cons_ok (lines lines2 : List Line) (f : Line) (rest : List Line)
    (h : applyFilter1 lines f = Except.ok lines2) :
    applyFilters lines (f :: rest) = applyFilters lines2 rest := by
  simp [applyFilters, h]

theorem applyFilter1_indent_param (lines : List Line) (tok : Line) (hc : ':' ∉ tok) :
    applyFilter1 lines (toL "indent:" ++ tok) =
      match intParam [toL "indent", tok] 1 4 with
      | Except.error e => Except.error e
      | Except.ok n => Except.ok (lines.map (indent n)) := by
  have hsp : splitOnChar ':' (toL "indent:" ++ tok) = [toL "indent", tok] := by
    have h1 : toL "indent:" ++ tok = toL "indent" ++ ':' :: tok := rfl
    rw [h1, splitOnChar_append ':' (toL "indent") tok (by decide),
      splitOnChar_no_sep ':' tok hc]
  unfold applyFilter1
  rw [hsp]
  rfl

theorem applyFilter1_truncate_param (lines : List Line) (tok : Line) (hc : ':' ∉ tok) :
    applyFilter1 lines (toL "truncate:" ++ tok) =
      match intParam [toL "truncate", tok] 1 10 with
      | Except.error e => Except.error e
      | Except.ok n => Except.ok (lines.map (fun l => truncate l n)) := by
  have hsp : splitOnChar ':' (toL "truncate:" ++ tok) = [toL "truncate", tok] := by
    have h1 : toL "truncate:" ++ tok = toL "truncate" ++ ':' :: tok := rfl
    rw [h1, splitOnChar_append ':' (toL "truncate") tok (by decide),
      splitOnChar_no_sep ':' tok hc]
  unfold applyFilter1
  rw [hsp]
  rfl

theorem applyFilter1_padleft_param (lines : List Line) (tok : Line) (hc : ':' ∉ tok) :
    applyFilter1 lines (toL "pad-left:" ++ tok) =
      match intParam [toL "pad-left", tok] 1 10 with
      | Except.error e => Except.error e
      | Except.ok w => Except.ok (lines.map (fun l => pad_left l w ' ')) := by
  have hsp : splitOnChar ':' (toL "pad-left:" ++ tok) = [toL "pad-left", tok] := by
    have h1 : toL "pad-left:" ++ tok = toL "pad-left" ++ ':' :: tok := rfl
    rw [h1, splitOnChar_append ':' (toL "pad-left") tok (by decide),
      splitOnChar_no_sep ':' tok hc]
  unfold applyFilter1
  rw [hsp]
  rfl

theorem applyFilter1_padright_param (lines : List Line) (tok : Line) (hc : ':' ∉ tok) :
    applyFilter1 lines (toL "pad-right:" ++ tok) =
      match intParam [toL "pad-right", tok] 1 10 with
      | Except.error e => Except.error e
      | Except.ok w => Except.ok (lines.map (fun l => pad_right l w ' ')) := by
  have hsp : splitOnChar ':' (toL "pad-right:" ++ tok) = [toL "pad-right", tok] := by
    have h1 : toL "pad-right:" ++ tok = toL "pad-right" ++ ':' :: tok := rfl
    rw [h1, splitOnChar_append ':' (toL "pad-right") tok (by decide),
      splitOnChar_no_sep ':' tok hc]
  unfold applyFilter1
  rw [hsp]
  rfl

theorem applyFilter1_colwidth_param (lines : List Line) (tok : Line) (hc : ':' ∉ tok) :
    applyFilter1 lines (toL "col-width:" ++ tok) =
      match intParam [toL "col-width", tok] 1 10 with
      | Except.error e => Except.error e
      | Except.ok w =>
        match colWidthDoc w ((lines.map List.length).sum) lines [] with
        | some r => Except.ok r
        | none => Except.error TqError.diverge := by
  have hsp : splitOnChar ':' (toL "col-width:" ++ tok) = [toL "col-width", tok] := by
    have h1 : toL "col-width:" ++ tok = toL "col-width" ++ ':' :: tok := rfl
    rw [h1, splitOnChar_append ':' (toL "col-width") tok (by decide),
      splitOnChar_no_sep ':' tok hc]
  unfold applyFilter1
  rw [hsp]
  rfl

theorem applyFilter1_padleft_char_param (lines : List Line) (tok : Line) (c : Char)
    (hc : ':' ∉ tok) (hch : c ≠ ':') :
    applyFilter1 lines (toL "pad-left:" ++ (tok ++ ':' :: [c])) =
      match intParam [toL "pad-left", tok, [c]] 1 10 with
      | Except.error e => Except.error e
      | Except.ok w => Except.ok (lines.map (fun l => pad_left l w c)) := by
  have hco : ':' ∉ [c] := fun hm => hch ((List.mem_singleton.mp hm).symm)
  have hsp : splitOnChar ':' (toL "pad-left:" ++ (tok ++ ':' :: [c])) =
      [toL "pad-left", tok, [c]] := by
    have h1 : toL "pad-left:" ++ (tok ++ ':' :: [c]) =
        toL "pad-left" ++ ':' :: (tok ++ ':' :: [c]) := rfl
    rw [h1, splitOnChar_append ':' (toL "pad-left") _ (by decide),
      splitOnChar_append ':' tok [c] hc, splitOnChar_no_sep ':' [c] hco]
  unfold applyFilter1
  rw [hsp]
  rfl

theorem applyFilter1_padright_char_param (lines : List Line) (tok : Line) (c : Char)
    (hc : ':' ∉ tok) (hch : c ≠ ':') :
    applyFilter1 lines (toL "pad-right:" ++ (tok ++ ':' :: [c])) =
      match intParam [toL "pad-right", tok, [c]] 1 10 with
      | Except.error e => Except.error e
      | Except.ok w => Except.ok (lines.map (fun l => pad_right l w c)) := by
  have hco : ':' ∉ [c] := fun hm => hch ((List.mem_singleton.mp hm).symm)
  have hsp : splitOnChar ':' (toL "pad-right:" ++ (tok ++ ':' :: [c])) =
      [toL "pad-right", tok, [c]] := by
    have h1 : toL "pad-right:" ++ (tok ++ ':' :: [c]) =
        toL "pad-right" ++ ':' :: (tok ++ ':' :: [c]) := rfl
    rw [h1, splitOnChar_append ':' (toL "pad-right") _ (by decide),
      splitOnChar_append ':' tok [c] hc, splitOnChar_no_sep ':' [c] hco]
  unfold applyFilter1
  rw [hsp]
  rfl

theorem intParam_some (a tok : Line) (rest : List Line) (d n : Int)
    (hn : pyInt tok = some n) :
    intParam (a :: tok :: rest) 1 d = Except.ok n := by
  simp [intParam, hn]

theorem intParam_none (a tok : Line) (rest : List Line) (d : Int)
    (hn : pyInt tok = none) :
    intParam (a :: tok :: rest) 1 d = Except.error (TqError.valueError tok) := by
  simp [intParam, hn]

theorem colWidthIter_zero (width : Int) (s : Line) (acc : List Line)
    (h : (s.length : Int) > width) :
    colWidthIter width 0 s acc = none := by
  unfold colWidthIter
  rw [if_pos h]

theorem colWidthIter_go (width : Int) (f : Nat) (s : Line) (acc : List Line)
    (h : (s.length : Int) > width) :
    colWidthIter width (f + 1) s acc =
      colWidthIter width f (pySliceFrom width s) (acc ++ [pySliceTo width s]) := by
  conv_lhs => rw [colWidthIter]
  rw [if_pos h]

theorem colWidthIter_stop (width : Int) (fuel : Nat) (s : Line) (acc : List Line)
    (h : ¬ ((s.length : Int) > width)) :
    colWidthIter width fuel s acc =
      if s = [] then some acc else some (acc ++ [s]) := by
  rw [colWidthIter.eq_def, if_neg h]

theorem colWidthLine_step (width : Int) (s : Line)
    (h : (s.length : Int) > width ∧ 1 ≤ width) :
    colWidthLine width s =
      pySliceTo width s :: colWidthLine width (pySliceFrom width s) := by
  conv_lhs => rw [colWidthLine]
  rw [dif_pos h]

theorem colWidthLine_stop (width : Int) (s : Line)
    (h : ¬ ((s.length : Int) > width ∧ 1 ≤ width)) :
    colWidthLine width s = if s = [] then [] else [s] := by
  rw [colWidthLine, dif_neg h]

theorem pyIdx_nonneg (width : Int) (hw : 0 ≤ width) (len : Nat) :
    pyIdx width len = width.toNat := by
  unfold pyIdx
  rw [if_neg (by omega)]

theorem pySliceFrom_length (width : Int) (hw : 1 ≤ width) (s : Line) :
    (pySliceFrom width s).length = s.length - width.toNat := by
  simp [pySliceFrom, pyIdx_nonneg width (by omega) s.length]

theorem pySlice_append (width : Int) (hw : 0 ≤ width) (s : Line) :
    pySliceTo width s ++ pySliceFrom width s = s := by
  simp [pySliceTo, pySliceFrom, List.take_append_drop]

theorem colWidthIter_total (width : Int) (hw : 1 ≤ width) :
    ∀ (fuel : Nat) (s : Line) (acc : List Line), s.length ≤ fuel →
      colWidthIter width fuel s acc = some (acc ++ colWidthLine width s) := by
  intro fuel
  induction fuel with
  | zero =>
    intro s acc hs
    have hs0 : s = [] := List.length_eq_zero.mp (Nat.le_zero.mp hs)
    subst hs0
    rw [colWidthIter_stop width 0 [] acc (by simp; omega), if_pos rfl,
      colWidthLine_stop width [] (by rintro ⟨h1, h2⟩; simp at h1; omega),
      if_pos rfl, List.append_nil]
  | succ f ih =>
    intro s acc hs
    by_cases hcond : (s.length : Int) > width
    · rw [colWidthIter_go width f s acc hcond]
      have hlen : (pySliceFrom width s).length ≤ f := by
        rw [pySliceFrom_length width hw s]
        omega
      rw [ih (pySliceFrom width s) (acc ++ [pySliceTo width s]) hlen,
        colWidthLine_step width s ⟨hcond, hw⟩]
      simp [List.append_assoc]
    · rw [colWidthIter_stop width (f + 1) s acc hcond,
        colWidthLine_stop width s (fun hcon => hcond hcon.1)]
      by_cases hnil : s = [] <;> simp [hnil]

theorem colWidthDoc_total (width : Int) (hw : 1 ≤ width) :
    ∀ (lines : List Line) (fuel : Nat), (∀ l ∈ lines, l.length ≤ fuel) →
      ∀ acc, colWidthDoc width fuel lines acc =
        some (acc ++ (lines.map (colWidthLine width)).flatten) := by
  intro lines
  induction lines with
  | nil => intro fuel h acc; simp [colWidthDoc]
  | cons a ls ih =>
    intro fuel h acc
    simp only [colWidthDoc]
    rw [colWidthIter_total width hw fuel a acc (h a (List.mem_cons_self a ls))]
    show colWidthDoc width fuel ls (acc ++ colWidthLine width a) =
      some (acc ++ ((a :: ls).map (colWidthLine width)).flatten)
    rw [ih fuel (fun l hl => h l (List.mem_cons_of_mem a hl)) (acc ++ colWidthLine width a)]
    simp [List.append_assoc]

theorem pySliceFrom_ne_nil (width : Int) (hw : width ≤ 0) (s : Line) (hs : s ≠ []) :
    pySliceFrom width s ≠ [] := by
  have hlen : 0 < s.length := List.length_pos.mpr hs
  intro hcontra
  have h2 : (pySliceFrom width s).length = 0 := by rw [hcontra]; rfl
  simp only [pySliceFrom, List.length_drop] at h2
  unfold pyIdx at h2
  by_cases hneg : width < 0
  · rw [if_pos hneg] at h2; omega
  · rw [if_neg hneg] at h2; omega

theorem colWidthIter_diverge (width : Int) (hw : width ≤ 0) :
    ∀ (fuel : Nat) (s : Line), s ≠ [] → ∀ acc, colWidthIter width fuel s acc = none := by
  intro fuel
  induction fuel with
  | zero =>
    intro s hs acc
    apply colWidthIter_zero
    have := List.length_pos.mpr hs
    omega
  | succ f ih =>
    intro s hs acc
    rw [colWidthIter_go width f s acc (by have := List.length_pos.mpr hs; omega)]
    exact ih (pySliceFrom width s) (pySliceFrom_ne_nil width hw s hs) _

theorem colWidthIter_nil_diverge (width : Int) (hw : width < 0) :
    ∀ (fuel : Nat) (acc : List Line), colWidthIter width fuel [] acc = none := by
  intro fuel
  induction fuel with
  | zero =>
    intro acc
    apply colWidthIter_zero
    simp
    omega
  | succ f ih =>
    intro acc
    rw [colWidthIter_go width f [] acc (by simp; omega)]
    have hfrom : pySliceFrom width ([] : Line) = [] := by simp [pySliceFrom]
    rw [hfrom]
    exact ih _

theorem colWidthDoc_diverge (width : Int) (hw : width ≤ 0) :
    ∀ (lines : List Line), (∃ l, l ∈ lines ∧ l ≠ []) →
      ∀ (fuel : Nat) (acc : List Line), colWidthDoc width fuel lines acc = none := by
  intro lines
  induction lines with
  | nil =>
    rintro ⟨l, hl, _⟩
    exact absurd hl (List.not_mem_nil l)
  | cons a ls ih =>
    rintro ⟨l, hl, hlne⟩ fuel acc
    simp only [colWidthDoc]
    by_cases ha : a = []
    · subst ha
      by_cases hneg : width < 0
      · rw [colWidthIter_nil_diverge width hneg fuel acc]
      · have hstop : colWidthIter width fuel [] acc = some acc := by
          rw [colWidthIter_stop width fuel [] acc (by simp; omega), if_pos rfl]
        rw [hstop]
        show colWidthDoc width fuel ls acc = none
        apply ih ?_ fuel acc
        rcases List.mem_cons.mp hl with he | hm
        · exact absurd he hlne
        · exact ⟨l, hm, hlne⟩
    · rw [colWidthIter_diverge width hw fuel a ha acc]

theorem colWidthLine_flatten (width : Int) (hw : 1 ≤ width) :
    ∀ (k : Nat) (s : Line), s.length ≤ k → (colWidthLine width s).flatten = s := by
  intro k
  induction k with
  | zero =>
    intro s hs
    have hs0 : s = [] := List.length_eq_zero.mp (Nat.le_zero.mp hs)
    subst hs0
    rw [colWidthLine_stop width [] (by rintro ⟨h1, h2⟩; simp at h1; omega), if_pos rfl]
    rfl
  | succ k ih =>
    intro s hs
    by_cases hcond : (s.length : Int) > width
    · rw [colWidthLine_step width s ⟨hcond, hw⟩]
      simp only [List.flatten_cons]
      rw [ih (pySliceFrom width s) (by rw [pySliceFrom_length width hw s]; omega)]
      exact pySlice_append width (by omega) s
    · rw [colWidthLine_stop width s (fun hcon => hcond hcon.1)]
      by_cases hnil : s = [] <;> simp [hnil]

theorem colWidthLine_lens (width : Int) (hw : 1 ≤ width) :
    ∀ (k : Nat) (s : Line), s.length ≤ k →
      ∀ i, i + 1 < (colWidthLine width s).length →
        ((colWidthLine width s).getD i []).length = width.toNat := by
  intro k
  induction k with
  | zero =>
    intro s hs i hi
    have hs0 : s = [] := List.length_eq_zero.mp (Nat.le_zero.mp hs)
    subst hs0
    rw [colWidthLine_stop width [] (by rintro ⟨h1, h2⟩; simp at h1; omega), if_pos rfl] at hi
    simp at hi
  | succ k ih =>
    intro s hs i hi
    by_cases hcond : (s.length : Int) > width
    · rw [colWidthLine_step width s ⟨hcond, hw⟩] at hi ⊢
      cases i with
      | zero =>
        simp only [List.getD_cons_zero]
        have hidx : pyIdx width s.length = width.toNat :=
          pyIdx_nonneg width (by omega) s.length
        simp only [pySliceTo, List.length_take, hidx]
        omega
      | succ j =>
        simp only [List.getD_cons_succ]
        apply ih (pySliceFrom width s) (by rw [pySliceFrom_length width hw s]; omega) j
        simpa using hi
    · rw [colWidthLine_stop width s (fun hcon => hcond hcon.1)] at hi
      by_cases hnil : s = [] <;> simp [hnil] at hi

theorem uniqueFrom_eq_spec :
    ∀ (ls : List Line) (seen : List Line),
      uniqueFrom seen ls = uniqueSpec (ls.filter (fun x => decide (x ∉ seen))) := by
  intro ls
  induction ls with
  | nil => intro seen; simp [uniqueFrom, uniqueSpec]
  | cons l ls ih =>
    intro seen
    by_cases hl : l ∈ seen
    · rw [uniqueFrom, if_pos hl, List.filter_cons_of_neg (by simp [hl]), ih seen]
    · have hfil : List.filter (fun a => decide (a ≠ l) && decide (a ∉ seen)) ls
          = List.filter (fun x => decide (x ∉ l :: seen)) ls := by
        apply List.filter_congr
        intro x _
        by_cases h1 : x = l <;> by_cases h2 : x ∈ seen <;>
          simp [h1, h2, List.mem_cons]
      rw [uniqueFrom, if_neg hl, List.filter_cons_of_pos (by simp [hl]), uniqueSpec,
        ih (l :: seen), List.filter_filter, hfil]

theorem applyFilter1_unregistered (f : Line) (lines : List Line)
    (hname : invocationName f ∉ registeredNames)
    (h1 : pyStartswith (toL "col-width") f ≠ true)
    (h2 : pyStartswith (toL "indent") f ≠ true)
    (h3 : pyStartswith (toL "pad-left") f ≠ true)
    (h4 : pyStartswith (toL "pad-right") f ≠ true)
    (h5 : pyStartswith (toL "truncate") f ≠ true) :
    applyFilter1 lines f = Except.ok lines := by
  have hne : ∀ k : Line, ':' ∉ k → k ∈ registeredNames → ¬ (f = k) := by
    intro k hk hkr he
    exact hname (by rw [he, invocationName_no_colon k hk]; exact hkr)
  have hg : get_filters f = none := by
    unfold get_filters
    rw [if_neg (hne (toL "snake-case") (by decide) (by decide)),
      if_neg (hne (toL "kebab-case") (by decide) (by decide)),
      if_neg (hne (toL "camel-case") (by decide) (by decide)),
      if_neg (hne (toL "pascal-case") (by decide) (by decide)),
      if_neg (hne (toL "title-case") (by decide) (by decide)),
      if_neg (hne (toL "sentence-case") (by decide) (by decide)),
      if_neg (hne (toL "lowercase") (by decide) (by decide)),
      if_neg (hne (toL "uppercase") (by decide) (by decide)),
      if_neg (hne (toL "capitalize") (by decide) (by decide)),
      if_neg (hne (toL "trim") (by decide) (by decide)),
      if_neg (hne (toL "reverse") (by decide) (by decide)),
      if_neg (hne (toL "count") (by decide) (by decide)),
      if_neg (hne (toL "length") (by decide) (by decide)),
      if_neg (hne (toL "indent") (by decide) (by decide)),
      if_neg (hne (toL "dedent") (by decide) (by decide)),
      if_neg (hne (toL "pad-left") (by decide) (by decide)),
      if_neg (hne (toL "pad-right") (by decide) (by decide)),
      if_neg (hne (toL "truncate") (by decide) (by decide))]
  unfold applyFilter1
  rw [if_neg (hne (toL "join") (by decide) (by decide)),
    if_neg (hne (toL "sort") (by decide) (by decide)),
    if_neg (hne (toL "unique") (by decide) (by decide)),
    if_neg (hne (toL "first") (by decide) (by decide)),
    if_neg (hne (toL "last") (by decide) (by decide)),
    if_neg (hne (toL "remove-empty") (by decide) (by decide)),
    if_neg h1, if_neg h2, if_neg h3, if_neg h4, if_neg h5, hg]

theorem applyFilter1_indent_ok (lines : List Line) (tok : Line) (n : Int)
    (hc : ':' ∉ tok) (hn : pyInt tok = some n) :
    applyFilter1 lines (toL "indent:" ++ tok) = Except.ok (lines.map (indent n)) := by
  rw [applyFilter1_indent_param lines tok hc, intParam_some _ _ _ _ _ hn]

theorem applyFilter1_indent_err (lines : List Line) (tok : Line)
    (hc : ':' ∉ tok) (hn : pyInt tok = none) :
    applyFilter1 lines (toL "indent:" ++ tok) =
      Except.error (TqError.valueError tok) := by
  rw [applyFilter1_indent_param lines tok hc, intParam_none _ _ _ _ hn]

theorem applyFilter1_truncate_ok (lines : List Line) (tok : Line) (n : Int)
    (hc : ':' ∉ tok) (hn : pyInt tok = some n) :
    applyFilter1 lines (toL "truncate:" ++ tok) =
      Except.ok (lines.map (fun l => truncate l n)) := by
  rw [applyFilter1_truncate_param lines tok hc, intParam_some _ _ _ _ _ hn]

theorem applyFilter1_truncate_err (lines : List Line) (tok : Line)
    (hc : ':' ∉ tok) (hn : pyInt tok = none) :
    applyFilter1 lines (toL "truncate:" ++ tok) =
      Except.error (TqError.valueError tok) := by
  rw [applyFilter1_truncate_param lines tok hc, intParam_none _ _ _ _ hn]

theorem applyFilter1_padleft_ok (lines : List Line) (tok : Line) (n : Int)
    (hc : ':' ∉ tok) (hn : pyInt tok = some n) :
    applyFilter1 lines (toL "pad-left:" ++ tok) =
      Except.ok (lines.map (fun l => pad_left l n ' ')) := by
  rw [applyFilter1_padleft_param lines tok hc, intParam_some _ _ _ _ _ hn]

theorem applyFilter1_padleft_err (lines : List Line) (tok : Line)
    (hc : ':' ∉ tok) (hn : pyInt tok = none) :
    applyFilter1 lines (toL "pad-left:" ++ tok) =
      Except.error (TqError.valueError tok) := by
  rw [applyFilter1_padleft_param lines tok hc, intParam_none _ _ _ _ hn]

theorem applyFilter1_padright_ok (lines : List Line) (tok : Line) (n : Int)
    (hc : ':' ∉ tok) (hn : pyInt tok = some n) :
    applyFilter1 lines (toL "pad-right:" ++ tok) =
      Except.ok (lines.map (fun l => pad_right l n ' ')) := by
  rw [applyFilter1_padright_param lines tok hc, intParam_some _ _ _ _ _ hn]

theorem applyFilter1_padright_err (lines : List Line) (tok : Line)
    (hc : ':' ∉ tok) (hn : pyInt tok = none) :
    applyFilter1 lines (toL "pad-right:" ++ tok) =
      Except.error (TqError.valueError tok) := by
  rw [applyFilter1_padright_param lines tok hc, intParam_none _ _ _ _ hn]

theorem applyFilter1_colwidth_err (lines : List Line) (tok : Line)
    (hc : ':' ∉ tok) (hn : pyInt tok = none) :
    applyFilter1 lines (toL "col-width:" ++ tok) =
      Except.error (TqError.valueError tok) := by
  rw [applyFilter1_colwidth_param lines tok hc, intParam_none _ _ _ _ hn]

theorem applyFilter1_padleft_char_ok (lines : List Line) (tok : Line) (c : Char) (n : Int)
    (hc : ':' ∉ tok) (hch : c ≠ ':') (hn : pyInt tok = some n) :
    applyFilter1 lines (toL "pad-left:" ++ (tok ++ ':' :: [c])) =
      Except.ok (lines.map (fun l => pad_left l n c)) := by
  rw [applyFilter1_padleft_char_param lines tok c hc hch, intParam_some _ _ _ _ _ hn]

theorem applyFilter1_padright_char_ok (lines : List Line) (tok : Line) (c : Char) (n : Int)
    (hc : ':' ∉ tok) (hch : c ≠ ':') (hn : pyInt tok = some n) :
    applyFilter1 lines (toL "pad-right:" ++ (tok ++ ':' :: [c])) =
      Except.ok (lines.map (fun l => pad_right l n c)) := by
  rw [applyFilter1_padright_char_param lines tok c hc hch, intParam_some _ _ _ _ _ hn]

/-- C1 counterexample: the segment name indentx matches no registered filter,
yet the Executor does not apply it as a no-op: the startswith dispatch sends
it to the indent branch, which indents by the default 4 spaces. -/
theorem unknown_name_prefix_counterexample :
    invocationName (toL "indentx") ∉ registeredNames ∧
    applyFilters [toL "a"] [toL "indentx"] = Except.ok [toL "    a"] ∧
    applyFilters [toL "a"] [toL "indentx"] ≠ Except.ok [toL "a"] :=
  ⟨by decide, by decide, by decide⟩

/-- C1 (amended): a chain segment whose invocation name matches no registered
filter is a silent no-op only when the segment also does not begin with one
of the prefixes col-width, indent, pad-left, pad-right or truncate; such a
segment passes the Document through unmodified. -/
theorem unknown_filter_noop :
    ∀ (f : Line) (lines rest : List Line),
      invocationName f ∉ registeredNames →
      pyStartswith (toL "col-width") f ≠ true →
      pyStartswith (toL "indent") f ≠ true →
      pyStartswith (toL "pad-left") f ≠ true →
      pyStartswith (toL "pad-right") f ≠ true →
      pyStartswith (toL "truncate") f ≠ true →
      applyFilters lines (f :: rest) = applyFilters lines rest := by
  intro f lines rest hname h1 h2 h3 h4 h5
  exact applyFilters_cons_ok lines lines f rest
    (applyFilter1_unregistered f lines hname h1 h2 h3 h4 h5)

/-- C1 witness: the unregistered name frobnicate is a no-op. -/
theorem unknown_filter_noop_witness :
    invocationName (toL "frobnicate") ∉ registeredNames ∧
    applyFilters [toL "a"] [toL "frobnicate"] = applyFilters [toL "a"] [] :=
  ⟨by decide, unknown_filter_noop (toL "frobnicate") [toL "a"] []
    (by decide) (by decide) (by decide) (by decide) (by decide) (by decide)⟩

/-- C2 counterexample: a non-integer parameter raises the bare ValueError of
int(), carrying only the offending token; two different filters given the
same bad token produce literally identical errors, so the error identifies
neither the filter name nor the parameter position, and no structured
InvalidFilterParameter value exists in the code. -/
theorem invalid_int_param_error_counterexample :
    applyFilters [toL "a"] [toL "indent:x"] =
      Except.error (TqError.valueError (toL "x")) ∧
    applyFilters [toL "a"] [toL "truncate:x"] =
      Except.error (TqError.valueError (toL "x")) :=
  ⟨by decide, by decide⟩

/-- C2 (amended): for each integer-parameter filter, a token that int()
cannot parse makes execution fail, but with an unstructured ValueError that
carries only the offending token, not the filter name or position. -/
theorem invalid_int_param_fails :
    ∀ (lines : List Line) (tok : Line), ':' ∉ tok → pyInt tok = none →
      applyFilters lines [toL "indent:" ++ tok] =
        Except.error (TqError.valueError tok) ∧
      applyFilters lines [toL "pad-left:" ++ tok] =
        Except.error (TqError.valueError tok) ∧
      applyFilters lines [toL "pad-right:" ++ tok] =
        Except.error (TqError.valueError tok) ∧
      applyFilters lines [toL "truncate:" ++ tok] =
        Except.error (TqError.valueError tok) ∧
      applyFilters lines [toL "col-width:" ++ tok] =
        Except.error (TqError.valueError tok) := by
  intro lines tok hc hn
  exact ⟨applyFilters_single_err _ _ _ (applyFilter1_indent_err lines tok hc hn),
    applyFilters_single_err _ _ _ (applyFilter1_padleft_err lines tok hc hn),
    applyFilters_single_err _ _ _ (applyFilter1_padright_err lines tok hc hn),
    applyFilters_single_err _ _ _ (applyFilter1_truncate_err lines tok hc hn),
    applyFilters_single_err _ _ _ (applyFilter1_colwidth_err lines tok hc hn)⟩

/-- C2 witness: indent:x fails with ValueError on the token x. -/
theorem invalid_int_param_fails_witness :
    ':' ∉ toL "x" ∧ pyInt (toL "x") = none ∧
    applyFilters [toL "a"] [toL "indent:" ++ toL "x"] =
      Except.error (TqError.valueError (toL "x")) :=
  ⟨by decide, by decide,
    (invalid_int_param_fails [toL "a"] (toL "x") (by decide) (by decide)).1⟩

/-- C3: every element-wise filter, invoked with its name alone or with valid
parameters, acts on any Document as List.map of one per-line function, so
the output has the same length and line i depends only on input line i. -/
theorem element_wise_filters_map :
    (∀ seg ∈ elementNames, ElementWise seg) ∧
    (∀ tok : Line, ':' ∉ tok → ∀ n : Int, pyInt tok = some n →
      ElementWise (toL "indent:" ++ tok) ∧ ElementWise (toL "truncate:" ++ tok) ∧
      ElementWise (toL "pad-left:" ++ tok) ∧ ElementWise (toL "pad-right:" ++ tok)) ∧
    (∀ (tok : Line) (c : Char), ':' ∉ tok → c ≠ ':' → ∀ n : Int, pyInt tok = some n →
      ElementWise (toL "pad-left:" ++ (tok ++ ':' :: [c])) ∧
      ElementWise (toL "pad-right:" ++ (tok ++ ':' :: [c]))) := by
  refine ⟨?_, ?_, ?_⟩
  · intro seg hseg
    unfold elementNames at hseg
    simp only [List.mem_cons, List.not_mem_nil, or_false] at hseg
    rcases hseg with h|h|h|h|h|h|h|h|h|h|h|h|h|h|h|h|h|h <;> subst h
    · exact ⟨snake_case, fun lines => rfl⟩
    · exact ⟨kebab_case, fun lines => rfl⟩
    · exact ⟨camel_case, fun lines => rfl⟩
    · exact ⟨pascal_case, fun lines => rfl⟩
    · exact ⟨title_case, fun lines => rfl⟩
    · exact ⟨sentence_case, fun lines => rfl⟩
    · exact ⟨lowercase, fun lines => rfl⟩
    · exact ⟨uppercase, fun lines => rfl⟩
    · exact ⟨capitalize, fun lines => rfl⟩
    · exact ⟨trim, fun lines => rfl⟩
    · exact ⟨reverse, fun lines => rfl⟩
    · exact ⟨count, fun lines => rfl⟩
    · exact ⟨length, fun lines => rfl⟩
    · exact ⟨indent 4, fun lines => rfl⟩
    · exact ⟨dedent, fun lines => rfl⟩
    · exact ⟨fun l => pad_left l 10 ' ', fun lines => rfl⟩
    · exact ⟨fun l => pad_right l 10 ' ', fun lines => rfl⟩
    · exact ⟨fun l => truncate l 10, fun lines => rfl⟩
  · intro tok hc n hn
    exact ⟨⟨indent n, fun lines =>
        applyFilters_single_ok _ _ _ (applyFilter1_indent_ok lines tok n hc hn)⟩,
      ⟨fun l => truncate l n, fun lines =>
        applyFilters_single_ok _ _ _ (applyFilter1_truncate_ok lines tok n hc hn)⟩,
      ⟨fun l => pad_left l n ' ', fun lines =>
        applyFilters_single_ok _ _ _ (applyFilter1_padleft_ok lines tok n hc hn)⟩,
      ⟨fun l => pad_right l n ' ', fun lines =>
        applyFilters_single_ok _ _ _ (applyFilter1_padright_ok lines tok n hc hn)⟩⟩
  · intro tok c hc hch n hn
    exact ⟨⟨fun l => pad_left l n c, fun lines =>
        applyFilters_single_ok _ _ _ (applyFilter1_padleft_char_ok lines tok c n hc hch hn)⟩,
      ⟨fun l => pad_right l n c, fun lines =>
        applyFilters_single_ok _ _ _ (applyFilter1_padright_char_ok lines tok c n hc hch hn)⟩⟩

/-- C3 witness: reverse and indent:7 are element-wise. -/
theorem element_wise_filters_map_witness :
    toL "reverse" ∈ elementNames ∧ ElementWise (toL "reverse") ∧
    ':' ∉ toL "7" ∧ pyInt (toL "7") = some 7 ∧
    ElementWise (toL "indent:" ++ toL "7") :=
  ⟨by decide, element_wise_filters_map.1 (toL "reverse") (by decide),
    by decide, by decide,
    (element_wise_filters_map.2.1 (toL "7") (by decide) 7 (by decide)).1⟩

/-- C4 counterexample: at width 0 the col-width loop of the source never
terminates on input line a, so no output Document exists at all, and in
particular no reconstruction property can hold at that width. -/
theorem col_width_zero_counterexample : colWidthNoOutput 0 (toL "a") := by
  intro fuel
  exact colWidthDoc_diverge 0 (by decide) [toL "a"]
    ⟨toL "a", List.mem_singleton.mpr rfl, by decide⟩ fuel []

/-- C4 (amended): for every width n >= 1 and single input line s, col-width
terminates (s.length fuel suffices), concatenating its output lines
reconstructs s exactly, and every output line except possibly the last has
length exactly n. -/
theorem col_width_reconstruction :
    ∀ (n : Int) (s : Line), 1 ≤ n →
      colWidthDoc n s.length [s] [] = some (colWidthLine n s) ∧
      (colWidthLine n s).flatten = s ∧
      ∀ i, i + 1 < (colWidthLine n s).length →
        ((colWidthLine n s).getD i []).length = n.toNat := by
  intro n s hn
  have hmem : ∀ l ∈ [s], List.length l ≤ s.length := by
    intro l hl
    exact (List.mem_singleton.mp hl) ▸ le_rfl
  have h := colWidthDoc_total n hn [s] s.length hmem []
  exact ⟨by simpa using h, colWidthLine_flatten n hn s.length s le_rfl,
    fun i hi => colWidthLine_lens n hn s.length s le_rfl i hi⟩

/-- C4 witness: col-width:3 on abcdef gives abc, def and reconstructs. -/
theorem col_width_reconstruction_witness :
    (1 : Int) ≤ 3 ∧
    colWidthDoc 3 (toL "abcdef").length [toL "abcdef"] [] =
      some (colWidthLine 3 (toL "abcdef")) ∧
    (colWidthLine 3 (toL "abcdef")).flatten = toL "abcdef" :=
  ⟨by decide, (col_width_reconstruction 3 (toL "abcdef") (by decide)).1,
    (col_width_reconstruction 3 (toL "abcdef") (by decide)).2.1⟩

/-- C5 counterexample: fed directly to the Executor, the segment
pad-left:5:SPACE pads with the space character, but after chain parsing the
same text has been whitespace-stripped, the pad character token has become
empty, and execution raises TypeError instead: the trailing-whitespace
parameter does not reach the filter unchanged. -/
theorem param_token_trim_counterexample :
    applyFilters [toL "foo"] [toL "pad-left:5: "] = Except.ok [toL "  foo"] ∧
    parse_filter_string (some (toL "pad-left:5: ")) = [toL "pad-left:5:"] ∧
    applyFilters [toL "foo"] (parse_filter_string (some (toL "pad-left:5: "))) =
      Except.error TqError.typeError :=
  ⟨by decide, by decide, by decide⟩

/-- C5 (amended): the colon split itself preserves parameter tokens verbatim
(re-joining the tokens with colons reconstructs the segment exactly, so no
per-token trimming happens), but the chain parser whitespace-strips each
segment before that split, so a parameter at a segment edge loses its
surrounding whitespace: in pad-left:5:SPACE the pad character token becomes
empty. -/
theorem colon_split_verbatim :
    (∀ s : Line, joinWithColon (splitOnChar ':' s) = s) ∧
    parse_filter_string (some (toL "pad-left:5: ")) = [toL "pad-left:5:"] ∧
    splitOnChar ':' (toL "pad-left:5:") = [toL "pad-left", toL "5", []] :=
  ⟨joinWithColon_splitOnChar, by decide, by decide⟩

/-- C6: unique removes exactly the lines equal to an earlier line, keeping
first occurrences in order, and on b,a,b,c returns b,a,c. -/
theorem unique_first_occurrence :
    (∀ lines : List Line, unique lines = uniqueSpec lines) ∧
    unique [toL "b", toL "a", toL "b", toL "c"] = [toL "b", toL "a", toL "c"] := by
  constructor
  · intro lines
    have h := uniqueFrom_eq_spec lines []
    simpa [unique] using h
  · decide

/-- C7: a None or empty filter expression parses to the empty chain, and the
Executor maps the empty chain to the identity transform. -/
theorem empty_chain_identity :
    parse_filter_string none = [] ∧ parse_filter_string (some []) = [] ∧
    ∀ lines : List Line, applyFilters lines [] = Except.ok lines :=
  ⟨rfl, rfl, fun lines => rfl⟩

/-- C8: parsing and executing snake-case pipe reverse on the Document
containing the single line Hello World! yields exactly dlrow_olleh. -/
theorem snake_reverse_end_to_end :
    applyFilters [toL "Hello World!"]
      (parse_filter_string (some (toL "snake-case | reverse"))) =
      Except.ok [toL "dlrow_olleh"] := by
  decide

/-- C9: on the empty Document, first and last return the empty Document and
join returns a Document holding exactly one empty line. -/
theorem empty_document_collection_filters :
    first [] = [] ∧ last [] = [] ∧ join [] = [[]] ∧
    applyFilters [] [toL "first"] = Except.ok [] ∧
    applyFilters [] [toL "last"] = Except.ok [] ∧
    applyFilters [] [toL "join"] = Except.ok [[]] :=
  ⟨rfl, rfl, rfl, by decide, by decide, by decide⟩

/-- C10: the col-width loop terminates on every Document exactly when its
width parameter is at least 1; for width <= 0 it runs forever on any
Document containing a non-empty line (no amount of fuel completes it). -/
theorem col_width_termination_iff :
    ∀ width : Int,
      ((∀ lines : List Line, ∃ fuel, (colWidthDoc width fuel lines []).isSome)
        ↔ 1 ≤ width) ∧
      (width ≤ 0 → ∀ lines : List Line, (∃ l, l ∈ lines ∧ l ≠ []) →
        ∀ fuel, colWidthDoc width fuel lines [] = none) := by
  intro width
  constructor
  · constructor
    · intro hall
      by_contra hlt
      have hw : width ≤ 0 := by omega
      obtain ⟨fuel, hf⟩ := hall [toL "a"]
      rw [colWidthDoc_diverge width hw [toL "a"]
        ⟨toL "a", List.mem_singleton.mpr rfl, by decide⟩ fuel []] at hf
      simp at hf
    · intro hw lines
      have hb : ∀ l ∈ lines, List.length l ≤ (lines.map List.length).sum := by
        intro l hl
        exact List.single_le_sum (fun x _ => Nat.zero_le x) _
          (List.mem_map_of_mem List.length hl)
      refine ⟨(lines.map List.length).sum, ?_⟩
      rw [colWidthDoc_total width hw lines ((lines.map List.length).sum) hb []]
      rfl
  · intro hw lines hex fuel
    exact colWidthDoc_diverge width hw lines hex fuel []

/-- C10 witness: at width 0 the loop never finishes on the line a. -/
theorem col_width_termination_iff_witness :
    (0 : Int) ≤ 0 ∧ colWidthDoc 0 7 [toL "a"] [] = none :=
  ⟨by decide, (col_width_termination_iff 0).2 (by decide) [toL "a"]
    ⟨toL "a", List.mem_singleton.mpr rfl, by decide⟩ 7⟩

end Tq
